import Mathlib

/-
Verification of the kagglecore pipeline skeleton (src/abstract.py).

The Python module is orchestration glue: an abstract data pipeline
(fetch, preprocess, feature generation, fold splitting, training,
submission) around external ML tooling.  This file shallowly embeds the
module's own logic: DataFrames become lists of rows, column sets become
lists of column names, the random shuffle of sklearn's KFold becomes an
explicit permutation parameter, and raised Python exceptions become
values of an explicit exception type.
-/

/-- Exception types that appear in the module (raised or caught). -/
inductive PyExc where
  | notImplementedError
  | valueError
  | osError
  | importError
  | typeError
deriving DecidableEq, Repr

/-! ## Error-handling inventory of the module (for the error-handling claims)

Each entry is one `raise` statement, or one `except` handler, of
src/abstract.py, paired with the exception type it raises or catches. -/

/-- Every `raise` site of src/abstract.py with the type it raises:
the NotImplementedError placeholders, plus the two ValueError guards in
`ABSSubmitter.__init__` (lines 189-192). -/
def raiseSites : List (String × PyExc) :=
  [("ABSCallable.main", PyExc.notImplementedError),
   ("ABSDataFetcher.main", PyExc.notImplementedError),
   ("ABSDataPostprocessor.main", PyExc.notImplementedError),
   ("ABSDataSplitter.train_test_split", PyExc.notImplementedError),
   ("ABSDataSplitter.cv_split", PyExc.notImplementedError),
   ("ABSSubmitter.__init__.competition_name_guard", PyExc.valueError),
   ("ABSSubmitter.__init__.experiment_name_guard", PyExc.valueError),
   ("ABSSubmitter.validate_submit_data", PyExc.notImplementedError),
   ("CodeSubmitter.estimate", PyExc.notImplementedError),
   ("CodeSubmitter.get_mock_api", PyExc.notImplementedError)]

/-- Every `try`/`except` handler of src/abstract.py with the exception type
it catches: the module-level import fallback (lines 22-31), the swallowed
OSError in `ABSDataPostprocessor._init_dir` (lines 113-119), and the
swallowed OSError in `ABSSubmitter._init_kaggle_api` (lines 305-314). -/
def exceptionHandlers : List (String × PyExc) :=
  [("module_import_fallback", PyExc.importError),
   ("ABSDataPostprocessor._init_dir", PyExc.osError),
   ("ABSSubmitter._init_kaggle_api", PyExc.osError)]

/-- Embedding of the validation guards at the top of `ABSSubmitter.__init__`:
an empty `competition_name` or an empty `experiment_name` raises ValueError,
otherwise no exception is raised. -/
def submitterInitGuard (competition_name experiment_name : String) : Option PyExc :=
  if competition_name = "" then some PyExc.valueError
  else if experiment_name = "" then some PyExc.valueError
  else none

/-! ## Placeholder contract methods (claim C6)

Each of these methods is a single unconditional
`raise NotImplementedError()` in the source. -/

/-- Embedding of `ABSCallable.main` (line 70-71). -/
def ABSCallable_main {D : Type} (df : D) : Except PyExc D :=
  Except.error PyExc.notImplementedError

/-- Embedding of `ABSDataFetcher.main` (line 78-79). -/
def ABSDataFetcher_main {D : Type} (dry_run : Bool) : Except PyExc D :=
  Except.error PyExc.notImplementedError

/-- Embedding of `ABSDataSplitter.train_test_split` (line 129-130). -/
def ABSDataSplitter_train_test_split {D : Type} (df : D) : Except PyExc (D × D) :=
  Except.error PyExc.notImplementedError

/-- Embedding of `ABSDataSplitter.cv_split` (line 132-142). -/
def ABSDataSplitter_cv_split {D : Type} (df : D) : Except PyExc (List (D × D)) :=
  Except.error PyExc.notImplementedError

/-- Embedding of `ABSSubmitter.validate_submit_data` (line 210-211). -/
def ABSSubmitter_validate_submit_data {S : Type} (sub : S) : Except PyExc Unit :=
  Except.error PyExc.notImplementedError

/-- Embedding of `CodeSubmitter.estimate` (line 360-363). -/
def CodeSubmitter_estimate {D : Type} (test : D) (sub : D) (proba : Bool) :
    Except PyExc D :=
  Except.error PyExc.notImplementedError

/-- Embedding of `CodeSubmitter.get_mock_api` (line 365-370). -/
def CodeSubmitter_get_mock_api : Except PyExc Unit :=
  Except.error PyExc.notImplementedError

/-! ## Preprocessor composition (claim C10) -/

/-- Embedding of `init_preprocessor(*args)` (lines 86-92): the returned
closure applies each processor to the frame in argument order
(`for processor in args: df = processor(df)`). -/
def init_preprocessor {D : Type} (args : List (D → D)) : D → D :=
  fun df => args.foldl (fun acc processor => processor acc) df

/-! ## The keyword-argument mismatch in CodeSubmitter.experiment (claim C5) -/

/-- Parameter names of `ABSSubmitter._train_and_evaluate` (lines 279-284),
`self` excluded: `train`, `retrain_all_data`, `save_model`. -/
def train_and_evaluate_param_names : List String :=
  ["train", "retrain_all_data", "save_model"]

/-- Keyword-argument names used at the call
`self._train_and_evaluate(features=df, retrain_all_data=retrain_all_data)`
inside `CodeSubmitter.experiment` (line 380). -/
def experiment_call_kwarg_names : List String :=
  ["features", "retrain_all_data"]

/-- Python keyword-argument binding: a call whose keyword names are not all
among the callee's parameter names raises TypeError before the callee body
runs. -/
def bindKwargs (params : List String) (kwargs : List String) : Except PyExc Unit :=
  if kwargs.all (fun k => params.contains k) then Except.ok ()
  else Except.error PyExc.typeError

/-- Embedding of `CodeSubmitter.experiment` (lines 372-388) up to the call of
`_train_and_evaluate`: first `process_data` runs (abstracted as `processData`),
then the keyword arguments of the `_train_and_evaluate` call are bound against
its parameter names.  The Bool records whether training was reached. -/
def CodeSubmitter_experiment {D R : Type} (processData : Bool → D)
    (trainEval : D → Bool → R) (dry_run retrain_all_data : Bool) :
    Bool × Except PyExc R :=
  let df := processData dry_run
  match bindKwargs train_and_evaluate_param_names experiment_call_kwarg_names with
  | Except.error e => (false, Except.error e)
  | Except.ok _ => (true, Except.ok (trainEval df retrain_all_data))

/-! ## Theorems for claims C4, C5, C6, C10 -/

/-- Claim C4, counterexample: the claim "the only exception type raised by the
repository's own code is NotImplementedError, and the only caught-and-suppressed
exception is the OSError handler in `ABSDataPostprocessor._init_dir`" is false:
`ABSSubmitter.__init__` raises ValueError (e.g. on an empty competition name),
and `ABSSubmitter._init_kaggle_api` is a second handler that swallows OSError. -/
theorem errorHandling_claim_counterexample :
    ("ABSSubmitter.__init__.competition_name_guard", PyExc.valueError) ∈ raiseSites ∧
    PyExc.valueError ≠ PyExc.notImplementedError ∧
    submitterInitGuard "" "experiment" = some PyExc.valueError ∧
    ("ABSSubmitter._init_kaggle_api", PyExc.osError) ∈ exceptionHandlers ∧
    "ABSSubmitter._init_kaggle_api" ≠ "ABSDataPostprocessor._init_dir" := by
  refine ⟨?_, ?_, ?_, ?_, ?_⟩ <;> decide

/-- Claim C4, amended: the module's own raises are NotImplementedError
placeholders plus the ValueError configuration guards of
`ABSSubmitter.__init__`; exceptions are caught and suppressed in three places
(the import fallback catching ImportError, and the OSError handlers of
`ABSDataPostprocessor._init_dir` and `ABSSubmitter._init_kaggle_api`), and the
`__init__` guard can only ever produce a ValueError. -/
theorem errorHandling_amended :
    (∀ s ∈ raiseSites,
      s.2 = PyExc.notImplementedError ∨ s.2 = PyExc.valueError) ∧
    (∀ h ∈ exceptionHandlers, h.2 = PyExc.osError ∨ h.2 = PyExc.importError) ∧
    (∀ c e, submitterInitGuard c e ≠ none →
      submitterInitGuard c e = some PyExc.valueError) := by
  refine ⟨by decide, by decide, ?_⟩
  intro c e h
  unfold submitterInitGuard at h ⊢
  by_cases hc : c = ""
  · simp [hc]
  · by_cases he : e = ""
    · simp [hc, he]
    · simp [hc, he] at h

/-- Claim C5: for every combination of its arguments,
`CodeSubmitter.experiment` raises TypeError at the
`_train_and_evaluate(features=df, ...)` call — `features` is not a parameter
of `_train_and_evaluate` — and training is never reached. -/
theorem codeSubmitter_experiment_typeError {D R : Type} (processData : Bool → D)
    (trainEval : D → Bool → R) (dry_run retrain_all_data : Bool) :
    CodeSubmitter_experiment processData trainEval dry_run retrain_all_data =
      (false, Except.error PyExc.typeError) := by
  rfl

/-- Claim C6: every placeholder contract method of the module raises
NotImplementedError unconditionally, for every input. -/
theorem placeholders_raise_notImplemented :
    (∀ (D : Type) (df : D),
      ABSCallable_main df = Except.error PyExc.notImplementedError) ∧
    (∀ (D : Type) (dry_run : Bool),
      ABSDataFetcher_main (D := D) dry_run = Except.error PyExc.notImplementedError) ∧
    (∀ (D : Type) (df : D),
      ABSDataSplitter_train_test_split df = Except.error PyExc.notImplementedError) ∧
    (∀ (D : Type) (df : D),
      ABSDataSplitter_cv_split df = Except.error PyExc.notImplementedError) ∧
    (∀ (S : Type) (sub : S),
      ABSSubmitter_validate_submit_data sub = Except.error PyExc.notImplementedError) ∧
    (∀ (D : Type) (test sub : D) (proba : Bool),
      CodeSubmitter_estimate test sub proba = Except.error PyExc.notImplementedError) ∧
    CodeSubmitter_get_mock_api = Except.error PyExc.notImplementedError := by
  exact ⟨fun _ _ => rfl, fun _ _ => rfl, fun _ _ => rfl, fun _ _ => rfl,
         fun _ _ => rfl, fun _ _ _ _ => rfl, rfl⟩

/-- Claim C10: the closure returned by `init_preprocessor` applies the
processors left to right in argument order — it is the identity for no
arguments, peels the first processor off the front, and applies the last
processor last. -/
theorem init_preprocessor_left_to_right :
    (∀ (D : Type) (df : D), init_preprocessor [] df = df) ∧
    (∀ (D : Type) (p : D → D) (ps : List (D → D)) (df : D),
      init_preprocessor (p :: ps) df = init_preprocessor ps (p df)) ∧
    (∀ (D : Type) (ps : List (D → D)) (p : D → D) (df : D),
      init_preprocessor (ps ++ [p]) df = p (init_preprocessor ps df)) := by
  refine ⟨fun _ _ => rfl, fun _ _ _ _ => rfl, ?_⟩
  intro D ps p df
  unfold init_preprocessor
  rw [List.foldl_append]
  rfl

/-! ## Submission column convention (claim C9)

A DataFrame is represented by its list of column names; `model.estimate`
is abstracted to the column list of its output. -/

/-- The part of an `MLBase` model that `get_submit_data` uses: the column
names of `estimate`'s output, and `target_col`. -/
structure ModelCols (D : Type) where
  estimate : D → List String
  target_col : String

/-- Embedding of `ABSSubmitter.get_submit_data` (lines 203-208) at the level
of column names: estimate, drop `target_col` when present, then rename the
`pred` column to `target_col`. -/
def get_submit_data {D : Type} (model : ModelCols D) (test : D) : List String :=
  let sub := model.estimate test
  let sub2 := if model.target_col ∈ sub
    then sub.filter (fun c => decide (c ≠ model.target_col)) else sub
  sub2.map (fun c => if c = "pred" then model.target_col else c)

/-- Claim C9: when the model's estimate output has a `pred` column and the
target column is not itself named `pred`, the frame returned by
`get_submit_data` contains the target column under the competition's expected
name and no `pred` column. -/
theorem get_submit_data_convention {D : Type} (model : ModelCols D) (test : D)
    (h1 : "pred" ∈ model.estimate test) (h2 : model.target_col ≠ "pred") :
    model.target_col ∈ get_submit_data model test ∧
    "pred" ∉ get_submit_data model test := by
  unfold get_submit_data
  constructor
  · apply List.mem_map.mpr
    refine ⟨"pred", ?_, by simp⟩
    by_cases ht : model.target_col ∈ model.estimate test
    · simp only [ht, if_true]
      exact List.mem_filter.mpr ⟨h1, by simpa using Ne.symm h2⟩
    · simpa [ht] using h1
  · intro hmem
    rcases List.mem_map.mp hmem with ⟨c, _, hc⟩
    by_cases hp : c = "pred"
    · rw [hp] at hc
      simp only [if_pos rfl] at hc
      exact h2 hc
    · rw [if_neg hp] at hc
      exact hp hc

/-- A concrete model whose estimate output has the columns `pred` and
`row_id`, with target column `target`. -/
def modelColsExample : ModelCols Unit :=
  { estimate := fun _ => ["pred", "row_id"], target_col := "target" }

/-- Witness for C9 at `modelColsExample`. -/
theorem get_submit_data_convention_witness :
    ("pred" ∈ modelColsExample.estimate () ∧
     modelColsExample.target_col ≠ "pred") ∧
    (modelColsExample.target_col ∈ get_submit_data modelColsExample () ∧
     "pred" ∉ get_submit_data modelColsExample ()) :=
  ⟨⟨by decide, by decide⟩,
   get_submit_data_convention modelColsExample () (by decide) (by decide)⟩

/-! ## Cross-validation metrics (claim C3)

`get_metrics` uses numpy's `mean` and `std`; both are modelled over the
real numbers.  `np.std` with its default `ddof=0` is the population
standard deviation. -/

/-- The result object consumed by `get_metrics`: its list of fold metrics. -/
structure CVResult where
  cv_metrics : List ℝ

/-- Embedding of `np.array(l).mean()`: the arithmetic mean. -/
noncomputable def npMean (l : List ℝ) : ℝ := l.sum / l.length

/-- Embedding of `np.array(l).std()` (default `ddof=0`): the population
standard deviation, the square root of the mean squared deviation. -/
noncomputable def npStd (l : List ℝ) : ℝ :=
  Real.sqrt ((l.map (fun x => (x - npMean l) ^ 2)).sum / l.length)

/-- Embedding of `ABSSubmitter._calc_sharpe` (lines 346-347). -/
noncomputable def calc_sharpe (mean std : ℝ) : ℝ := mean / (std + 1)

/-- The dict returned by `get_metrics`. -/
structure MetricsDict where
  cv_mean : ℝ
  cv_std : ℝ
  cv_sharpe : ℝ

/-- Embedding of `ABSSubmitter.get_metrics` (lines 213-225): mean and std of
`res.cv_metrics`, sharpe via `_calc_sharpe`. -/
noncomputable def get_metrics (res : CVResult) : MetricsDict :=
  { cv_mean := npMean res.cv_metrics
    cv_std := npStd res.cv_metrics
    cv_sharpe := calc_sharpe (npMean res.cv_metrics) (npStd res.cv_metrics) }

/-- Claim C3: for a non-empty metric list, `get_metrics` returns the
arithmetic mean (`cv_mean` times the fold count is the metric sum), the
population standard deviation (`cv_std` is nonnegative and its square times
the fold count is the sum of squared deviations from `cv_mean`), and
`cv_sharpe = cv_mean / (cv_std + 1)`. -/
theorem get_metrics_spec (res : CVResult) (h : res.cv_metrics ≠ []) :
    (get_metrics res).cv_mean * res.cv_metrics.length = res.cv_metrics.sum ∧
    0 ≤ (get_metrics res).cv_std ∧
    (get_metrics res).cv_std ^ 2 * res.cv_metrics.length =
      (res.cv_metrics.map (fun x => (x - (get_metrics res).cv_mean) ^ 2)).sum ∧
    (get_metrics res).cv_sharpe =
      (get_metrics res).cv_mean / ((get_metrics res).cv_std + 1) := by
  have hn : (res.cv_metrics.length : ℝ) ≠ 0 := by
    have := List.length_pos.mpr h
    positivity
  refine ⟨?_, Real.sqrt_nonneg _, ?_, rfl⟩
  · unfold get_metrics npMean
    exact div_mul_cancel₀ _ hn
  · unfold get_metrics npStd
    rw [Real.sq_sqrt]
    · exact div_mul_cancel₀ _ hn
    · apply div_nonneg _ (Nat.cast_nonneg _)
      apply List.sum_nonneg
      intro x hx
      rcases List.mem_map.mp hx with ⟨y, _, hy⟩
      rw [← hy]
      positivity

/-- Witness for C3 at the concrete fold metrics `[0, 2]` (mean 1, population
standard deviation 1, sharpe 1/2). -/
theorem get_metrics_spec_witness :
    (CVResult.mk [0, 2]).cv_metrics ≠ [] ∧
    ((get_metrics (CVResult.mk [0, 2])).cv_mean *
        (CVResult.mk [0, 2]).cv_metrics.length = (CVResult.mk [0, 2]).cv_metrics.sum ∧
     0 ≤ (get_metrics (CVResult.mk [0, 2])).cv_std ∧
     (get_metrics (CVResult.mk [0, 2])).cv_std ^ 2 *
        (CVResult.mk [0, 2]).cv_metrics.length =
        ((CVResult.mk [0, 2]).cv_metrics.map
          (fun x => (x - (get_metrics (CVResult.mk [0, 2])).cv_mean) ^ 2)).sum ∧
     (get_metrics (CVResult.mk [0, 2])).cv_sharpe =
        (get_metrics (CVResult.mk [0, 2])).cv_mean /
          ((get_metrics (CVResult.mk [0, 2])).cv_std + 1)) :=
  ⟨by simp, get_metrics_spec (CVResult.mk [0, 2]) (by simp)⟩

/-! ## Pipeline orchestration of make_submission (claim C7)

The competition-specific stages are fields of a record; `make_submission`
is embedded as a function that returns the trace of executed stages
together with the data handed to the submission and recording steps. -/

/-- One executed stage of the `make_submission` pipeline. -/
inductive StageEvent where
  | fetchData
  | preprocess
  | generateFeatures
  | loadCachedFeatures
  | trainTestSplit
  | trainEvaluate
  | getSubmitData
  | validateSubmit
  | submitPredictions
  | saveExperiment
deriving DecidableEq, Repr

/-- The competition-specific stage implementations that `ABSSubmitter`
orchestrates: fetcher, preprocessor, feature generator, the feature cache
state of `process_data`, the train/test splitter, cross-validated training
(`_train_and_evaluate`), and `get_submit_data`/`validate_submit_data`
abstracted to a submission-frame builder. -/
structure SubmitterModel (D R S : Type) where
  data_fetcher : Bool → D
  data_preprocessor : D → D
  feature_generator : D → D
  load_features : Bool
  cached_df : D
  train_test_split : D → D × D
  train_and_evaluate : D → R
  submit_data : D → S

/-- Embedding of `ABSSubmitter._process_data` (lines 272-277): fetch, then
preprocess, then generate features, each stage consuming the previous
stage's output. -/
def process_data_core {D R S : Type} (s : SubmitterModel D R S) (dry_run : Bool) :
    List StageEvent × D :=
  ([StageEvent.fetchData, StageEvent.preprocess, StageEvent.generateFeatures],
   s.feature_generator (s.data_preprocessor (s.data_fetcher dry_run)))

/-- Embedding of `ABSSubmitter.process_data` (lines 261-270): when the
feature generator has cached features they are loaded, otherwise
`_process_data` runs. -/
def process_data {D R S : Type} (s : SubmitterModel D R S) (dry_run : Bool) :
    List StageEvent × D :=
  if s.load_features then ([StageEvent.loadCachedFeatures], s.cached_df)
  else process_data_core s dry_run

/-- What `make_submission` did: the executed stages in order, the frame
handed to `api.competition_submit`, the result handed to
`_save_experiment`, and the value returned to the caller. -/
structure MakeSubmissionResult (D R S : Type) where
  events : List StageEvent
  submitted : Option S
  recorded : Option R
  returned : Option (S × R)

/-- Embedding of `ABSSubmitter.make_submission` (lines 230-259): process the
data, train/test split it, train and evaluate on the train part, build and
validate the submission frame from the test part; then, unless `dry_run`,
either return the pair (`return_only`) or submit it and record the
experiment. -/
def make_submission {D R S : Type} (s : SubmitterModel D R S)
    (dry_run return_only : Bool) : MakeSubmissionResult D R S :=
  let pd := process_data s dry_run
  let tt := s.train_test_split pd.2
  let res := s.train_and_evaluate tt.1
  let sub := s.submit_data tt.2
  let evs := pd.1 ++ [StageEvent.trainTestSplit, StageEvent.trainEvaluate,
                      StageEvent.getSubmitData, StageEvent.validateSubmit]
  if dry_run then
    { events := evs, submitted := none, recorded := none, returned := none }
  else if return_only then
    { events := evs, submitted := none, recorded := none,
      returned := some (sub, res) }
  else
    { events := evs ++ [StageEvent.submitPredictions, StageEvent.saveExperiment],
      submitted := some sub, recorded := some res, returned := none }

/-- Claim C7: with no cached features, `dry_run = false` and
`return_only = false`, `make_submission` executes fetch, preprocess,
feature generation, train/test split, train-and-evaluate, submission-frame
construction and validation, submission and experiment recording, in that
order; the submitted frame is built from the test part of the split of the
feature-generated, preprocessed, fetched data, and the recorded result from
cross-validation on the train part. -/
theorem make_submission_pipeline {D R S : Type} (s : SubmitterModel D R S)
    (h : s.load_features = false) :
    (make_submission s false false).events =
      [StageEvent.fetchData, StageEvent.preprocess, StageEvent.generateFeatures,
       StageEvent.trainTestSplit, StageEvent.trainEvaluate,
       StageEvent.getSubmitData, StageEvent.validateSubmit,
       StageEvent.submitPredictions, StageEvent.saveExperiment] ∧
    (make_submission s false false).submitted =
      some (s.submit_data
        (s.train_test_split
          (s.feature_generator (s.data_preprocessor (s.data_fetcher false)))).2) ∧
    (make_submission s false false).recorded =
      some (s.train_and_evaluate
        (s.train_test_split
          (s.feature_generator (s.data_preprocessor (s.data_fetcher false)))).1) ∧
    (make_submission s false false).returned = none := by
  unfold make_submission process_data process_data_core
  rw [h]
  exact ⟨rfl, rfl, rfl, rfl⟩

/-- A concrete submitter instance over natural numbers, with no cached
features. -/
def submitterExample : SubmitterModel Nat Nat Nat :=
  { data_fetcher := fun dry => if dry then 0 else 1
    data_preprocessor := fun d => d + 1
    feature_generator := fun d => d * 2
    load_features := false
    cached_df := 99
    train_test_split := fun d => (d, d + 7)
    train_and_evaluate := fun d => d * 10
    submit_data := fun d => d + 100 }

/-- Witness for C7 at `submitterExample`. -/
theorem make_submission_pipeline_witness :
    submitterExample.load_features = false ∧
    ((make_submission submitterExample false false).events =
      [StageEvent.fetchData, StageEvent.preprocess, StageEvent.generateFeatures,
       StageEvent.trainTestSplit, StageEvent.trainEvaluate,
       StageEvent.getSubmitData, StageEvent.validateSubmit,
       StageEvent.submitPredictions, StageEvent.saveExperiment] ∧
     (make_submission submitterExample false false).submitted =
      some (submitterExample.submit_data
        (submitterExample.train_test_split
          (submitterExample.feature_generator
            (submitterExample.data_preprocessor
              (submitterExample.data_fetcher false)))).2) ∧
     (make_submission submitterExample false false).recorded =
      some (submitterExample.train_and_evaluate
        (submitterExample.train_test_split
          (submitterExample.feature_generator
            (submitterExample.data_preprocessor
              (submitterExample.data_fetcher false)))).1) ∧
     (make_submission submitterExample false false).returned = none) :=
  ⟨rfl, make_submission_pipeline submitterExample rfl⟩

/-! ## The submission polling loop (claim C8)

`watch_submit_time` queries the submission list, and loops until the
tracked submission's status is `complete`, sleeping 60 seconds after every
incomplete query.  The remote is abstracted as the function `status` from
iteration number to the status string observed by that iteration's query;
the loop gets explicit fuel (the Python loop need not terminate). -/

/-- One observable step of `watch_submit_time`. -/
inductive WatchEvent where
  | query
  | printElapsed
  | sleep60
  | printResult
deriving DecidableEq, Repr

/-- Embedding of the `while status != "complete"` loop of
`watch_submit_time` (lines 45-58): every iteration re-queries the
submission list; on `complete` it prints the run time and score and stops,
otherwise it prints the elapsed time, sleeps 60 seconds and loops. -/
def watchLoop (status : Nat → String) : Nat → Nat → List WatchEvent × Bool
  | 0, _ => ([], false)
  | Nat.succ fuel, i =>
    if status i = "complete" then
      ([WatchEvent.query, WatchEvent.printResult], true)
    else
      let rest := watchLoop status fuel (i + 1)
      (WatchEvent.query :: WatchEvent.printElapsed :: WatchEvent.sleep60 :: rest.1,
       rest.2)

/-- Embedding of `watch_submit_time` (lines 36-58): one initial query
establishes the latest submission, then the polling loop runs. -/
def watch_submit_time (status : Nat → String) (fuel : Nat) :
    List WatchEvent × Bool :=
  (WatchEvent.query :: (watchLoop status fuel 0).1, (watchLoop status fuel 0).2)

/-- The trace of a polling loop that sees `k` incomplete statuses and then a
complete one: `k` rounds of query/print/sleep, then a final query and the
result print. -/
def pollTrace : Nat → List WatchEvent
  | 0 => [WatchEvent.query, WatchEvent.printResult]
  | Nat.succ k =>
      WatchEvent.query :: WatchEvent.printElapsed :: WatchEvent.sleep60 ::
        pollTrace k

/-- The polling loop, started at iteration `i` with enough fuel, runs one
query/print/sleep round per incomplete status and stops at the first
complete one. -/
theorem watchLoop_trace (status : Nat → String) :
    ∀ (k i fuel : Nat), (∀ j, j < k → status (i + j) ≠ "complete") →
      status (i + k) = "complete" → k < fuel →
      watchLoop status fuel i = (pollTrace k, true) := by
  intro k
  induction k with
  | zero =>
    intro i fuel _ hc hf
    match fuel, hf with
    | Nat.succ f, _ =>
      simp only [watchLoop]
      rw [if_pos (by simpa using hc)]
      rfl
  | succ k ih =>
    intro i fuel h1 hc hf
    match fuel, hf with
    | Nat.succ f, hf =>
      have h0 : status i ≠ "complete" := by
        simpa using h1 0 (Nat.succ_pos k)
      have step : watchLoop status (Nat.succ f) i =
          (WatchEvent.query :: WatchEvent.printElapsed :: WatchEvent.sleep60 ::
            (watchLoop status f (i + 1)).1, (watchLoop status f (i + 1)).2) := by
        simp only [watchLoop]
        rw [if_neg h0]
      have ihh : watchLoop status f (i + 1) = (pollTrace k, true) := by
        apply ih
        · intro j hj
          have := h1 (j + 1) (Nat.succ_lt_succ hj)
          simpa [Nat.add_assoc, Nat.add_comm 1 j] using this
        · simpa [Nat.add_assoc, Nat.add_comm 1 k] using hc
        · exact Nat.lt_of_succ_lt_succ hf
      rw [step, ihh]
      rfl

/-- If no query ever observes `complete`, the loop never finishes. -/
theorem watchLoop_no_exit (status : Nat → String)
    (h : ∀ j, status j ≠ "complete") :
    ∀ (fuel i : Nat), (watchLoop status fuel i).2 = false := by
  intro fuel
  induction fuel with
  | zero => intro i; rfl
  | succ f ih =>
    intro i
    simp only [watchLoop]
    rw [if_neg (h i)]
    exact ih (i + 1)

/-- Claim C8: `watch_submit_time` is a pure polling loop.  When the first
`complete` status is observed on iteration `k` (and the fuel suffices), the
run is the initial query followed by exactly one query, one elapsed-time
print and one 60-second sleep per incomplete iteration, ending with a query
and the run-time/score print on iteration `k`; and while the status never
equals `complete` the loop never exits. -/
theorem watch_submit_time_poll (status : Nat → String) (k fuel : Nat)
    (h1 : ∀ j, j < k → status j ≠ "complete")
    (h2 : status k = "complete") (h3 : k < fuel) :
    watch_submit_time status fuel = (WatchEvent.query :: pollTrace k, true) ∧
    ∀ (g : Nat → String) (f i : Nat), (∀ j, g j ≠ "complete") →
      (watchLoop g f i).2 = false := by
  constructor
  · have := watchLoop_trace status k 0 fuel (by simpa using h1) (by simpa using h2) h3
    unfold watch_submit_time
    rw [this]
  · intro g f i hg
    exact watchLoop_no_exit g hg f i

/-- A concrete status stream: `running` twice, then `complete`. -/
def statusExample : Nat → String :=
  fun j => if j = 2 then "complete" else "running"

/-- Witness for C8 at `statusExample` with fuel 4: two sleep rounds, then
the result print. -/
theorem watch_submit_time_poll_witness :
    ((∀ j, j < 2 → statusExample j ≠ "complete") ∧
     statusExample 2 = "complete" ∧ 2 < 4) ∧
    (watch_submit_time statusExample 4 =
      (WatchEvent.query :: pollTrace 2, true) ∧
     ∀ (g : Nat → String) (f i : Nat), (∀ j, g j ≠ "complete") →
       (watchLoop g f i).2 = false) :=
  ⟨⟨by decide, by decide, by decide⟩,
   watch_submit_time_poll statusExample 2 4 (by decide) (by decide) (by decide)⟩

/-! ## K-fold splitting (claims C1 and C2)

`ABSDataSplitter.k_fold` delegates to sklearn's
`KFold(n_splits, shuffle=True, random_state=SEED)`.  `KFold.split(X)`
shuffles the index array `0..n-1` and cuts the shuffled array into
`n_splits` consecutive validation folds of sizes `n // k + 1` (first
`n % k` folds) and `n // k` (the rest); the train indices of a fold are
the remaining positions in ascending order.  The shuffle is embedded as
an explicit permutation parameter `perm`, so the theorems hold for every
outcome of the random number generator. -/

/-- Validation fold sizes of sklearn's `KFold` for `n` samples and `k`
splits: `n // k + 1` for the first `n % k` folds, `n // k` afterwards. -/
def foldSizes (n k : Nat) : List Nat :=
  (List.range k).map (fun i => n / k + if i < n % k then 1 else 0)

/-- Cut a list into consecutive chunks of the given sizes. -/
def chunksOf {α : Type} : List α → List Nat → List (List α)
  | _, [] => []
  | l, s :: ss => l.take s :: chunksOf (l.drop s) ss

/-- The validation index arrays produced by
`KFold(n_splits=k, shuffle=True).split` on `n` samples, with the shuffled
index array given by `perm`: consecutive chunks of `perm` with the sklearn
fold sizes. -/
def validIndexLists (n k : Nat) (perm : List Nat) : List (List Nat) :=
  chunksOf perm (foldSizes n k)

/-- The train index array that `KFold.split` pairs with a validation index
array: all sample positions not in the validation fold, in ascending
order. -/
def trainIndexList (n : Nat) (valid : List Nat) : List Nat :=
  (List.range n).filter (fun i => decide (i ∉ valid))

/-- Embedding of `df.iloc[idx]` for an index array: the rows of `df` at the
positions of `idx`, in the order of `idx`. -/
def ilocRows {α : Type} (df : List α) (idx : List Nat) : List α :=
  idx.filterMap (fun i => df[i]?)

/-- Embedding of `ABSDataSplitter.k_fold` (lines 144-149): for every
(train_index, valid_index) pair of the shuffled `KFold`, yield
`(df.iloc[train_index], df.iloc[valid_index])`. -/
def k_fold {α : Type} (df : List α) (n_splits : Nat) (perm : List Nat) :
    List (List α × List α) :=
  (validIndexLists df.length n_splits perm).map
    (fun v => (ilocRows df (trainIndexList df.length v), ilocRows df v))

/-- Cutting a list into chunks yields one chunk per requested size. -/
theorem length_chunksOf {α : Type} :
    ∀ (sizes : List Nat) (l : List α), (chunksOf l sizes).length = sizes.length
  | [], _ => rfl
  | _ :: ss, l => by simp [chunksOf, length_chunksOf ss]

/-- Every element of a chunk comes from the chunked list. -/
theorem mem_of_mem_chunksOf {α : Type} :
    ∀ (sizes : List Nat) (l : List α) (c : List α), c ∈ chunksOf l sizes →
      ∀ x ∈ c, x ∈ l := by
  intro sizes
  induction sizes with
  | nil => intro l c hc; simp [chunksOf] at hc
  | cons s ss ih =>
    intro l c hc x hx
    rcases List.mem_cons.mp hc with h | h
    · exact List.mem_of_mem_take (h ▸ hx)
    · exact List.mem_of_mem_drop (ih (l.drop s) c h x hx)

/-- Arithmetic helper: summing `a` plus an extra unit for the first `r`
indices over `range k`. -/
theorem sum_range_add_ite (a r : Nat) :
    ∀ k, ((List.range k).map (fun i => a + if i < r then 1 else 0)).sum =
      k * a + min r k := by
  intro k
  induction k with
  | zero => simp
  | succ k ih =>
    rw [List.range_succ, List.map_append, List.sum_append, ih]
    by_cases h : k < r
    · rw [Nat.min_eq_right (Nat.le_of_lt h), Nat.min_eq_right h]
      simp [h, Nat.succ_mul]
      omega
    · rw [Nat.min_eq_left (Nat.le_of_not_lt h),
          Nat.min_eq_left (Nat.le_succ_of_le (Nat.le_of_not_lt h))]
      simp [h, Nat.succ_mul]
      omega

/-- The sklearn fold sizes add up to the sample count. -/
theorem sum_foldSizes (n k : Nat) (hk : 1 ≤ k) : (foldSizes n k).sum = n := by
  unfold foldSizes
  rw [sum_range_add_ite]
  rw [Nat.min_eq_left (Nat.le_of_lt (Nat.mod_lt n hk))]
  exact Nat.div_add_mod n k

/-- Cutting a duplicate-free list into chunks that exhaust it puts every
element into exactly one chunk. -/
theorem countP_chunksOf (p : Nat) :
    ∀ (sizes : List Nat) (l : List Nat), l.Nodup → sizes.sum = l.length →
      p ∈ l → (chunksOf l sizes).countP (fun c => decide (p ∈ c)) = 1 := by
  intro sizes
  induction sizes with
  | nil =>
    intro l _ hsum hp
    rw [List.eq_nil_of_length_eq_zero hsum.symm] at hp
    simp at hp
  | cons s ss ih =>
    intro l hnodup hsum hp
    have hsum' : s + ss.sum = l.length := by simpa using hsum
    have hdl : ss.sum = (l.drop s).length := by
      rw [List.length_drop]
      omega
    have hsplit := List.take_append_drop s l
    rw [show chunksOf l (s :: ss) = l.take s :: chunksOf (l.drop s) ss from rfl,
        List.countP_cons]
    by_cases hpt : p ∈ l.take s
    · have hnd : p ∉ l.drop s := by
        have hap : (l.take s ++ l.drop s).Nodup := by rwa [hsplit]
        exact fun hd => (List.nodup_append.mp hap).2.2 hpt hd
      have hzero : (chunksOf (l.drop s) ss).countP (fun c => decide (p ∈ c)) = 0 := by
        apply List.countP_eq_zero.mpr
        intro c hc
        simp only [decide_eq_true_eq]
        exact fun hpc => hnd (mem_of_mem_chunksOf ss (l.drop s) c hc p hpc)
      simp [hzero, hpt]
    · have hpd : p ∈ l.drop s := by
        rcases List.mem_append.mp (by rwa [hsplit] : p ∈ l.take s ++ l.drop s)
          with h | h
        · exact absurd h hpt
        · exact h
      have hone := ih (l.drop s) (hnodup.sublist (List.drop_sublist _ _)) hdl hpd
      simp [hone, hpt]

/-- Claim C1: for a frame with at least `n_splits` rows and any shuffle
permutation, `k_fold` yields exactly `n_splits` (train, valid) pairs; in
each pair the validation positions are row positions of `df`, a row
position is a train position exactly when it is not a validation position
(so train and valid are disjoint and together cover every row), and every
row position lands in the validation part of exactly one fold. -/
theorem k_fold_partition {α : Type} (df : List α) (n_splits : Nat)
    (perm : List Nat) (hk : 1 ≤ n_splits) (hn : n_splits ≤ df.length)
    (hperm : perm.Perm (List.range df.length)) :
    (k_fold df n_splits perm).length = n_splits ∧
    (∀ v ∈ validIndexLists df.length n_splits perm, ∀ i ∈ v, i < df.length) ∧
    (∀ v ∈ validIndexLists df.length n_splits perm, ∀ i, i < df.length →
      (i ∈ trainIndexList df.length v ↔ i ∉ v)) ∧
    (∀ p, p < df.length →
      (validIndexLists df.length n_splits perm).countP
        (fun v => decide (p ∈ v)) = 1) := by
  refine ⟨?_, ?_, ?_, ?_⟩
  · simp [k_fold, validIndexLists, length_chunksOf, foldSizes]
  · intro v hv i hi
    have : i ∈ perm := mem_of_mem_chunksOf _ perm v hv i hi
    exact List.mem_range.mp (hperm.mem_iff.mp this)
  · intro v _ i hi
    simp [trainIndexList, List.mem_filter, List.mem_range, hi]
  · intro p hp
    apply countP_chunksOf
    · exact hperm.nodup_iff.mpr (List.nodup_range _)
    · rw [sum_foldSizes _ _ hk, hperm.length_eq, List.length_range]
    · exact hperm.mem_iff.mpr (List.mem_range.mpr hp)

/-- Witness for C1 on a concrete five-row frame split into two folds with
the identity shuffle. -/
theorem k_fold_partition_witness :
    ((1 : Nat) ≤ 2 ∧ 2 ≤ ([10, 20, 30, 40, 50] : List Nat).length ∧
     (List.range 5).Perm (List.range ([10, 20, 30, 40, 50] : List Nat).length)) ∧
    ((k_fold ([10, 20, 30, 40, 50] : List Nat) 2 (List.range 5)).length = 2 ∧
     (∀ v ∈ validIndexLists ([10, 20, 30, 40, 50] : List Nat).length 2 (List.range 5),
        ∀ i ∈ v, i < ([10, 20, 30, 40, 50] : List Nat).length) ∧
     (∀ v ∈ validIndexLists ([10, 20, 30, 40, 50] : List Nat).length 2 (List.range 5),
        ∀ i, i < ([10, 20, 30, 40, 50] : List Nat).length →
          (i ∈ trainIndexList ([10, 20, 30, 40, 50] : List Nat).length v ↔ i ∉ v)) ∧
     (∀ p, p < ([10, 20, 30, 40, 50] : List Nat).length →
        (validIndexLists ([10, 20, 30, 40, 50] : List Nat).length 2
          (List.range 5)).countP (fun v => decide (p ∈ v)) = 1)) :=
  ⟨⟨by decide, by decide, List.Perm.refl _⟩,
   k_fold_partition ([10, 20, 30, 40, 50] : List Nat) 2 (List.range 5)
     (by decide) (by decide) (List.Perm.refl _)⟩

/-! ## Grouped k-fold splitting (claim C2)

`ABSDataSplitter.group_k_fold` runs the shuffled `KFold` over the array of
unique group values (`df[group_col].unique()`) and filters the frame by
membership of its group column in the resulting group subsets.  A row is
abstracted to a value of type `α` with its group read off by `groupOf`
(the `group_col` column).  `unique()` is modelled by `List.dedup` — a
duplicate-free list of exactly the occurring group values; pandas keeps
first-occurrence order while `dedup` keeps last-occurrence order, and none
of the proved properties depend on the enumeration order. -/

/-- The array `groups = df[group_col].unique()` of line 154. -/
def uniqueGroups {α G : Type} [DecidableEq G] (groupOf : α → G)
    (df : List α) : List G :=
  (df.map groupOf).dedup

/-- Numpy fancy indexing `groups[index_array]`. -/
def groupsAt {G : Type} (gs : List G) (idx : List Nat) : List G :=
  idx.filterMap (fun i => gs[i]?)

/-- Embedding of `ABSDataSplitter.group_k_fold` (lines 151-158): for every
(train_index, valid_index) pair of the shuffled `KFold` over the unique
group values, yield the rows whose group is in `groups[train_index]` and
the rows whose group is in `groups[valid_index]`. -/
def group_k_fold {α G : Type} [DecidableEq G] (groupOf : α → G) (df : List α)
    (n_splits : Nat) (perm : List Nat) : List (List α × List α) :=
  (validIndexLists (uniqueGroups groupOf df).length n_splits perm).map
    (fun vIdx =>
      (df.filter (fun x => decide (groupOf x ∈
         groupsAt (uniqueGroups groupOf df)
           (trainIndexList (uniqueGroups groupOf df).length vIdx))),
       df.filter (fun x => decide (groupOf x ∈
         groupsAt (uniqueGroups groupOf df) vIdx))))

/-- In a duplicate-free group list, the group subsets selected by a
validation index list and by its complementary train index list are
disjoint. -/
theorem groupsAt_train_valid_disjoint {G : Type} (gs : List G)
    (hnd : gs.Nodup) (vIdx : List Nat) (g : G)
    (hg1 : g ∈ groupsAt gs (trainIndexList gs.length vIdx))
    (hg2 : g ∈ groupsAt gs vIdx) : False := by
  rcases List.mem_filterMap.mp hg1 with ⟨i, hiT, hgi⟩
  rcases List.mem_filterMap.mp hg2 with ⟨j, hjV, hgj⟩
  have hiNotV : i ∉ vIdx := by
    have := List.mem_filter.mp hiT
    simpa using this.2
  have hilt : i < gs.length := by
    have := List.getElem?_eq_some.mp hgi
    exact this.1
  have : i = j := List.getElem?_inj hilt hnd (hgi.trans hgj.symm)
  exact hiNotV (this ▸ hjV)

/-- Claim C2: for every shuffle permutation over the unique group values
(of which there are at least `n_splits`), each validation index list of the
grouped k-fold determines a yielded (train, valid) pair such that no group
value appears on both sides, and every row of `df` whose group value lies
in the fold's validation group set appears in the fold's valid frame. -/
theorem group_k_fold_groups_not_split {α G : Type} [DecidableEq G]
    (groupOf : α → G) (df : List α) (n_splits : Nat) (perm : List Nat)
    (hk : n_splits ≤ (uniqueGroups groupOf df).length)
    (hperm : perm.Perm (List.range (uniqueGroups groupOf df).length)) :
    ∀ vIdx ∈ validIndexLists (uniqueGroups groupOf df).length n_splits perm,
      ((df.filter (fun x => decide (groupOf x ∈
          groupsAt (uniqueGroups groupOf df)
            (trainIndexList (uniqueGroups groupOf df).length vIdx))),
        df.filter (fun x => decide (groupOf x ∈
          groupsAt (uniqueGroups groupOf df) vIdx)))
          ∈ group_k_fold groupOf df n_splits perm) ∧
      (∀ r ∈ df.filter (fun x => decide (groupOf x ∈
          groupsAt (uniqueGroups groupOf df)
            (trainIndexList (uniqueGroups groupOf df).length vIdx))),
       ∀ r2 ∈ df.filter (fun x => decide (groupOf x ∈
          groupsAt (uniqueGroups groupOf df) vIdx)),
         groupOf r ≠ groupOf r2) ∧
      (∀ r ∈ df, groupOf r ∈ groupsAt (uniqueGroups groupOf df) vIdx →
         r ∈ df.filter (fun x => decide (groupOf x ∈
           groupsAt (uniqueGroups groupOf df) vIdx))) := by
  intro vIdx hv
  refine ⟨?_, ?_, ?_⟩
  · exact List.mem_map_of_mem _ hv
  · intro r hr r2 hr2
    have h1 := List.mem_filter.mp hr
    have h2 := List.mem_filter.mp hr2
    have hg1 : groupOf r ∈ groupsAt (uniqueGroups groupOf df)
        (trainIndexList (uniqueGroups groupOf df).length vIdx) := by
      simpa using h1.2
    have hg2 : groupOf r2 ∈ groupsAt (uniqueGroups groupOf df) vIdx := by
      simpa using h2.2
    intro heq
    exact groupsAt_train_valid_disjoint (uniqueGroups groupOf df)
      (List.nodup_dedup _) vIdx (groupOf r) hg1 (heq ▸ hg2)
  · intro r hr hg
    exact List.mem_filter.mpr ⟨hr, by simpa using hg⟩

/-- Witness for C2 on a concrete frame of five rows over three groups,
split into three folds with the identity shuffle. -/
theorem group_k_fold_groups_not_split_witness :
    (3 ≤ (uniqueGroups (fun r : Nat => r) [0, 1, 2, 0, 1]).length ∧
     (List.range 3).Perm
       (List.range (uniqueGroups (fun r : Nat => r) [0, 1, 2, 0, 1]).length)) ∧
    (∀ vIdx ∈ validIndexLists
        (uniqueGroups (fun r : Nat => r) [0, 1, 2, 0, 1]).length 3 (List.range 3),
      ((([0, 1, 2, 0, 1] : List Nat).filter (fun x => decide ((fun r : Nat => r) x ∈
          groupsAt (uniqueGroups (fun r : Nat => r) [0, 1, 2, 0, 1])
            (trainIndexList
              (uniqueGroups (fun r : Nat => r) [0, 1, 2, 0, 1]).length vIdx))),
        ([0, 1, 2, 0, 1] : List Nat).filter (fun x => decide ((fun r : Nat => r) x ∈
          groupsAt (uniqueGroups (fun r : Nat => r) [0, 1, 2, 0, 1]) vIdx)))
          ∈ group_k_fold (fun r : Nat => r) [0, 1, 2, 0, 1] 3 (List.range 3)) ∧
      (∀ r ∈ ([0, 1, 2, 0, 1] : List Nat).filter (fun x => decide ((fun r : Nat => r) x ∈
          groupsAt (uniqueGroups (fun r : Nat => r) [0, 1, 2, 0, 1])
            (trainIndexList
              (uniqueGroups (fun r : Nat => r) [0, 1, 2, 0, 1]).length vIdx))),
       ∀ r2 ∈ ([0, 1, 2, 0, 1] : List Nat).filter (fun x => decide ((fun r : Nat => r) x ∈
          groupsAt (uniqueGroups (fun r : Nat => r) [0, 1, 2, 0, 1]) vIdx)),
         (fun r : Nat => r) r ≠ (fun r : Nat => r) r2) ∧
      (∀ r ∈ ([0, 1, 2, 0, 1] : List Nat),
        (fun r : Nat => r) r ∈
          groupsAt (uniqueGroups (fun r : Nat => r) [0, 1, 2, 0, 1]) vIdx →
        r ∈ ([0, 1, 2, 0, 1] : List Nat).filter (fun x => decide ((fun r : Nat => r) x ∈
          groupsAt (uniqueGroups (fun r : Nat => r) [0, 1, 2, 0, 1]) vIdx)))) :=
  ⟨⟨by decide, List.Perm.refl _⟩,
   group_k_fold_groups_not_split (fun r : Nat => r) [0, 1, 2, 0, 1] 3
     (List.range 3) (by decide) (List.Perm.refl _)⟩
